import Mathlib

/-!
Shallow embedding of `stream_alert/rule_processor/parsers.py`: the value
model, the five parsers (JSON, gzip-JSON, CSV, key-value, syslog) and the
shared log-pattern matcher, together with theorems checking the
specification's claims against this embedding.

Python exceptions that the source can raise and does not catch are modelled
with `Except Unit`; the Python literal `False` returned on a failed parse is
the `ParseOutcome.failure` sentinel.
-/

namespace StreamAlert

/-- Model of the Python values that appear in records and payloads:
JSON values plus Python `None` (`null`).  Floats are carried as exact
rationals; no arithmetic is ever performed on record values in the source,
so this loses nothing. -/
inductive JValue where
  | str (s : String)
  | int (n : Int)
  | float (q : Rat)
  | bool (b : Bool)
  | null
  | list (xs : List JValue)
  | obj (fields : List (String × JValue))

abbrev JObj := List (String × JValue)

/-- A schema type descriptor: a primitive tag, a list marker (a Python list
value such as `[]`) or a nested schema (a Python dict value). -/
inductive SchemaType where
  | string
  | integer
  | float
  | boolean
  | listMarker (elems : List SchemaType)
  | nested (fields : List (String × SchemaType))

/-- A schema: Python `OrderedDict` from field name to type descriptor. -/
abbrev Schema := List (String × SchemaType)

/-- Python dict lookup on an association list (keys of embedded dicts are
unique, mirroring Python dicts). -/
def lookupField {α : Type} : List (String × α) → String → Option α
  | [], _ => none
  | (k, v) :: rest, key => if k = key then some v else lookupField rest key

/-- Python `d.keys()` in insertion order. -/
def keysOf {α : Type} (d : List (String × α)) : List String := d.map Prod.fst

/-- Python `key in d` for a dict. -/
def hasKey {α : Type} (d : List (String × α)) (k : String) : Bool :=
  (lookupField d k).isSome

/-- Python dict assignment `d[k] = v`: replaces the value in place when the
key exists, appends a new binding otherwise. -/
def dictUpdate {α : Type} : List (String × α) → String → α → List (String × α)
  | [], key, v => [(key, v)]
  | (k, w) :: rest, key, v =>
    if k = key then (k, v) :: rest else (k, w) :: dictUpdate rest key v

/-- Equality of the Python `set`s of two key lists. -/
def keySetEq (xs ys : List String) : Bool :=
  xs.all (fun x => ys.contains x) && ys.all (fun y => xs.contains y)

def isMapping : JValue → Bool
  | .obj _ => true
  | _ => false

/-- Result of `parse`: the source returns either a list of records or the
Python literal `False` (the `failure` sentinel). -/
inductive ParseOutcome where
  | records (rs : List JValue)
  | failure

/-- Model of `fnmatch.fnmatch` for the glob constructs `*` and `?` (no
claim exercises `[seq]` character classes, so `[` is treated as a literal
character here).  On POSIX `os.path.normcase` is the identity, so matching
is case-sensitive. -/
def globMatchL : List Char → List Char → Bool
  | [], [] => true
  | [], p :: ps => if p = '*' then globMatchL [] ps else false
  | _ :: _, [] => false
  | c :: cs, p :: ps =>
    if p = '*' then globMatchL (c :: cs) ps || globMatchL cs (p :: ps)
    else if p = '?' then globMatchL cs ps
    else (c == p) && globMatchL cs ps
termination_by x y => (x.length, y.length)

/-- `any(fnmatch(value, pattern) for pattern in pattern_list)`.  The
generator is lazy: with an empty pattern list `fnmatch` is never invoked;
on a non-string value the first `fnmatch` call raises `TypeError`
(modelled as an error). -/
def fnmatchAny (value : JValue) (pats : List String) : Except Unit Bool :=
  match pats with
  | [] => .ok false
  | _ :: _ =>
    match value with
    | .str s => .ok (pats.any (fun p => globMatchL s.data p.data))
    | _ => .error ()

/-- The value attached to a field of a `log_patterns` mapping: a list of
glob patterns, a nested pattern mapping, or some other Python value
(neither list nor dict). -/
inductive PatternVal where
  | globs (pats : List String)
  | nested (ps : List (String × PatternVal))
  | other

abbrev PatternSet := List (String × PatternVal)

mutual

/-- Structural size of a pattern value, used to bound the recursion of the
pattern-matching loop. -/
def PatternVal.weight : PatternVal → Nat
  | .globs _ => 1
  | .other => 1
  | .nested ps => 1 + weightList ps

def weightList : List (String × PatternVal) → Nat
  | [] => 0
  | (_, v) :: rest => 1 + v.weight + weightList rest

end

/-- Body of the loop of `ParserBase.matched_log_pattern` over
`log_patterns.iteritems()`, threading the accumulated `pattern_result`
list.  A nested pattern mapping returns the recursive call's result
immediately (short-circuiting any later fields); its field access
`record[field]` sits outside any `try` block, so a missing field raises
`KeyError` there (an error in this embedding), while in the glob branch
the guarded lookup failure merely skips the field.  The fuel argument
only bounds recursion; `matchedLogPattern` supplies enough for it never
to run out. -/
def mlpLoop (fuel : Nat) (record : JValue) (ps : PatternSet) (acc : List Bool) :
    Except Unit Bool :=
  match fuel with
  | 0 => .error ()
  | fuel + 1 =>
    match ps with
    | [] => .ok (acc.all id)
    | (field, v) :: rest =>
      match v with
      | .nested sub =>
        match record with
        | .obj fs =>
          match lookupField fs field with
          | none => .error ()
          | some subRec =>
            if sub.isEmpty || !(isMapping subRec) then .ok false
            else mlpLoop fuel subRec sub []
        | _ => .error ()
      | .other => mlpLoop fuel record rest acc
      | .globs pats =>
        match record with
        | .obj fs =>
          match lookupField fs field with
          | none => mlpLoop fuel record rest acc
          | some value =>
            match fnmatchAny value pats with
            | .error e => .error e
            | .ok b => mlpLoop fuel record rest (acc ++ [b])
        | _ => mlpLoop fuel record rest acc

/-- `ParserBase.matched_log_pattern`: returns `False` when the pattern
mapping is empty or the record is not a mapping, and otherwise the
conjunction of the per-field results collected by the loop. -/
def matchedLogPattern (record : JValue) (ps : PatternSet) : Except Unit Bool :=
  if ps.isEmpty || !(isMapping record) then .ok false
  else mlpLoop (weightList ps + 1) record ps []

/-- Parser identifiers (`__parserid__` class attributes). -/
def JSONParser.parserid : String := "json"

def GzipJSONParser.parserid : String := "gzip-json"

def CSVParser.parserid : String := "csv"

def KVParser.parserid : String := "kv"

def SyslogParser.parserid : String := "syslog"

/-- `GzipJSONParser.type`: the source returns the `__parserid__` found on
the superclass proxy, i.e. `JSONParser.__parserid__`. -/
def GzipJSONParser.type : String := JSONParser.parserid

/-! ### Model of `json.loads`

A fuel-indexed recursive-descent parser for JSON text.  It covers objects,
arrays, strings with the common escapes, numbers (integers, decimal
fractions and exponents), `true`, `false` and `null` — everything the
repository's payloads use.  `none` models Python's `ValueError`. -/

def jsonWs (c : Char) : Bool :=
  c = ' ' || c = '\t' || c = '\n' || c = '\r'

def skipWs (cs : List Char) : List Char := cs.dropWhile jsonWs

def jsonEscape (c : Char) : Option Char :=
  if c = '"' then some '"'
  else if c = '\\' then some '\\'
  else if c = '/' then some '/'
  else if c = 'n' then some '\n'
  else if c = 't' then some '\t'
  else if c = 'r' then some '\r'
  else if c = 'b' then some (Char.ofNat 8)
  else if c = 'f' then some (Char.ofNat 12)
  else none

/-- Parse the remainder of a JSON string literal (the opening quote already
consumed); `\u` escapes are not modelled (no payload in this development
uses them). -/
def jsonStringRest : List Char → Option (String × List Char)
  | [] => none
  | '"' :: rest => some ("", rest)
  | '\\' :: c :: rest =>
    match jsonEscape c with
    | none => none
    | some e =>
      match jsonStringRest rest with
      | none => none
      | some (s, r) => some (⟨e :: s.data⟩, r)
  | c :: rest =>
    match jsonStringRest rest with
    | none => none
    | some (s, r) => some (⟨c :: s.data⟩, r)

def digitsToNat (ds : List Char) : Nat :=
  ds.foldl (fun acc d => acc * 10 + (d.toNat - '0'.toNat)) 0

/-- Parse a JSON number.  The numeric value is computed exactly as a
rational; numbers written with a fraction or exponent load as floats. -/
def jsonNumber (cs : List Char) : Option (JValue × List Char) :=
  let (neg, cs1) := match cs with
    | '-' :: r => (true, r)
    | _ => (false, cs)
  let intPart := cs1.takeWhile Char.isDigit
  let cs2 := cs1.dropWhile Char.isDigit
  if intPart.isEmpty then none
  else
    let (fracPart, cs3) := match cs2 with
      | '.' :: r => (r.takeWhile Char.isDigit, r.dropWhile Char.isDigit)
      | _ => ([], cs2)
    let hasFrac : Bool := match cs2 with
      | '.' :: _ => true
      | _ => false
    if hasFrac && fracPart.isEmpty then none
    else
      let (hasExp, expNeg, expPart, cs4) := match cs3 with
        | 'e' :: '-' :: r => (true, true, r.takeWhile Char.isDigit, r.dropWhile Char.isDigit)
        | 'e' :: '+' :: r => (true, false, r.takeWhile Char.isDigit, r.dropWhile Char.isDigit)
        | 'e' :: r => (true, false, r.takeWhile Char.isDigit, r.dropWhile Char.isDigit)
        | 'E' :: '-' :: r => (true, true, r.takeWhile Char.isDigit, r.dropWhile Char.isDigit)
        | 'E' :: '+' :: r => (true, false, r.takeWhile Char.isDigit, r.dropWhile Char.isDigit)
        | 'E' :: r => (true, false, r.takeWhile Char.isDigit, r.dropWhile Char.isDigit)
        | _ => (false, false, [], cs3)
      if hasExp && expPart.isEmpty then none
      else
        let mantissa : Rat :=
          (digitsToNat intPart : Rat) +
            (digitsToNat fracPart : Rat) / ((10 : Rat) ^ fracPart.length)
        let scaled : Rat :=
          if hasExp then
            if expNeg then mantissa / ((10 : Rat) ^ digitsToNat expPart)
            else mantissa * ((10 : Rat) ^ digitsToNat expPart)
          else mantissa
        let signed : Rat := if neg then -scaled else scaled
        if hasFrac || hasExp then some (.float signed, cs4)
        else some (.int (if neg then -(digitsToNat intPart : Int) else (digitsToNat intPart : Int)), cs4)

mutual

def jsonValue : Nat → List Char → Option (JValue × List Char)
  | 0, _ => none
  | fuel + 1, cs =>
    match skipWs cs with
    | '{' :: rest => jsonMembers fuel (skipWs rest) [] true
    | '[' :: rest => jsonItems fuel (skipWs rest) [] true
    | '"' :: rest =>
      match jsonStringRest rest with
      | none => none
      | some (s, r) => some (.str s, r)
    | 't' :: 'r' :: 'u' :: 'e' :: rest => some (.bool true, rest)
    | 'f' :: 'a' :: 'l' :: 's' :: 'e' :: rest => some (.bool false, rest)
    | 'n' :: 'u' :: 'l' :: 'l' :: rest => some (.null, rest)
    | other => jsonNumber other

def jsonMembers : Nat → List Char → JObj → Bool → Option (JValue × List Char)
  | 0, _, _, _ => none
  | fuel + 1, cs, acc, first =>
    match cs with
    | '}' :: rest => if first then some (.obj acc.reverse, rest) else none
    | '"' :: rest =>
      match jsonStringRest rest with
      | none => none
      | some (k, r1) =>
        match skipWs r1 with
        | ':' :: r2 =>
          match jsonValue fuel r2 with
          | none => none
          | some (v, r3) =>
            match skipWs r3 with
            | ',' :: r4 => jsonMembers fuel (skipWs r4) ((k, v) :: acc) false
            | '}' :: r4 => some (.obj ((k, v) :: acc).reverse, r4)
            | _ => none
        | _ => none
    | _ => none

def jsonItems : Nat → List Char → List JValue → Bool → Option (JValue × List Char)
  | 0, _, _, _ => none
  | fuel + 1, cs, acc, first =>
    match cs with
    | ']' :: rest => if first then some (.list acc.reverse, rest) else none
    | _ =>
      match jsonValue fuel cs with
      | none => none
      | some (v, r1) =>
        match skipWs r1 with
        | ',' :: r2 => jsonItems fuel (skipWs r2) (v :: acc) false
        | ']' :: r2 => some (.list (v :: acc).reverse, r2)
        | _ => none

end

/-- `json.loads`: parse a complete JSON document; trailing non-whitespace
raises `ValueError` (modelled as `none`). -/
def jsonLoads (s : String) : Option JValue :=
  match jsonValue (s.length + 1) s.data with
  | none => none
  | some (v, rest) => if (skipWs rest).isEmpty then some v else none

/-! ### Model of the `jsonpath_rw` library

Only the path forms the repository's configurations use are modelled:
`$`-rooted dotted field access and the `[*]` wildcard, e.g. `$.recs[*]`.
A path the tokenizer does not recognise models `jsonpath_rw.parse`
raising (an uncaught exception in the source). -/

inductive PathSeg where
  | field (name : String)
  | star

def pathNameChar (c : Char) : Bool := c.isAlphanum || c = '_'

/-- Split off the longest leading run of path-name characters. -/
def nameSpan : List Char → List Char × List Char
  | [] => ([], [])
  | c :: cs =>
    if pathNameChar c then
      let (a, b) := nameSpan cs
      (c :: a, b)
    else ([], c :: cs)

theorem nameSpan_snd_length (cs : List Char) : (nameSpan cs).2.length ≤ cs.length := by
  induction cs with
  | nil => simp [nameSpan]
  | cons c cs ih =>
    simp only [nameSpan]
    split
    · simpa using Nat.le_succ_of_le ih
    · simp

/-- Tokenizer worker; the fuel (one unit per consumed character is ample)
only bounds recursion and `pathTokens` supplies enough never to hit 0. -/
def pathTokensF : Nat → List Char → Option (List PathSeg)
  | 0, _ => none
  | _, [] => some []
  | fuel + 1, '.' :: rest => pathTokensF fuel rest
  | fuel + 1, '[' :: '*' :: ']' :: rest => (pathTokensF fuel rest).map (PathSeg.star :: ·)
  | fuel + 1, c :: rest =>
    if pathNameChar c then
      (pathTokensF fuel (nameSpan rest).2).map (PathSeg.field ⟨c :: (nameSpan rest).1⟩ :: ·)
    else none

def pathTokens (cs : List Char) : Option (List PathSeg) :=
  pathTokensF (cs.length + 1) cs

def applySeg (seg : PathSeg) (v : JValue) : List JValue :=
  match seg, v with
  | .field n, .obj fs =>
    match lookupField fs n with
    | some w => [w]
    | none => []
  | .star, .list xs => xs
  | .star, .obj fs => fs.map Prod.snd
  | _, _ => []

def applySegs : List PathSeg → JValue → List JValue
  | [], v => [v]
  | seg :: rest, v => (applySeg seg v).flatMap (applySegs rest)

/-- `jsonpath_rw.parse(path).find(payload)`, returning the matched values;
`none` models a path-parse exception. -/
def jsonpathFind (path : String) (payload : JValue) : Option (List JValue) :=
  let cs := match path.data with
    | '$' :: rest => rest
    | other => other
  (pathTokens cs).map (fun segs => applySegs segs payload)

/-- `jsonpath_rw.parse("$." + ",".join(keys)).find(payload)`: a union of
top-level fields, matching the values of the listed fields that are
present, in key order. -/
def envelopeFind (keys : List String) (payload : JValue) : List JValue :=
  match payload with
  | .obj fs => keys.filterMap (fun k => lookupField fs k)
  | _ => []

/-! ### `JSONParser` -/

/-- The recognised JSON parser options.  An absent key models
`options.get(...)` returning `None`; Python truthiness of present values
is handled at the use sites. -/
structure JSONOptions where
  optional_top_level_keys : Option (List (String × SchemaType)) := none
  json_path : Option String := none
  envelope_keys : Option Schema := none

/-- Python truthiness of the whole options dict: the source returns the
payload unchanged when `options` is empty. -/
def JSONOptions.isEmptyOpts (o : JSONOptions) : Bool :=
  o.optional_top_level_keys.isNone && o.json_path.isNone && o.envelope_keys.isNone

namespace JSONParser

/-- `default_optional_values`: the if/elif chain compares the declared type
against `'string'`, `'integer'`, `'float'`, `'boolean'`, the empty list
and the empty `OrderedDict`; any other descriptor (in particular a
non-empty nested schema or non-empty list marker) falls off the end and
yields Python `None`. -/
def defaultOptionalValues : SchemaType → JValue
  | .string => .str ""
  | .integer => .int 0
  | .float => .float 0
  | .boolean => .bool false
  | .listMarker [] => .list []
  | .nested [] => .obj []
  | .listMarker (_ :: _) => .null
  | .nested (_ :: _) => .null

/-- Python `key in payload` for the payload shapes that support `in`;
`int`, `float`, `bool` and `None` raise `TypeError`. -/
def pyContains (payload : JValue) (k : String) : Except Unit Bool :=
  match payload with
  | .obj fs => .ok (hasKey fs k)
  | .list xs => .ok (xs.any (fun x => match x with
      | .str t => t = k
      | _ => false))
  | .str s => .ok (List.range (s.length + 1) |>.any
      (fun i => (s.data.drop i).take k.length = k.data))
  | _ => .error ()

/-- The `optional_top_level_keys` loop: each entry is merged into the
schema; when the key is absent from the payload its default value is
assigned (item assignment on a non-mapping payload raises `TypeError`). -/
def processOptionalKeys (schema : Schema) (payload : JValue)
    (okeys : List (String × SchemaType)) : Except Unit (Schema × JValue) :=
  match okeys with
  | [] => .ok (schema, payload)
  | (k, ty) :: rest =>
    let schema1 := dictUpdate schema k ty
    match pyContains payload k with
    | .error e => .error e
    | .ok true => processOptionalKeys schema1 payload rest
    | .ok false =>
      match payload with
      | .obj fs =>
        processOptionalKeys schema1 (.obj (fs ++ [(k, defaultOptionalValues ty)])) rest
      | _ => .error ()

/-- `JSONParser._parse_records`.  Mutation of `self.schema` is made
explicit: the updated schema is returned alongside the candidate
records. -/
def parseRecords (schema : Schema) (o : JSONOptions) (payload : JValue) :
    Except Unit (Schema × List JValue) :=
  if o.isEmptyOpts then .ok (schema, [payload])
  else
    let step1 : Except Unit (Schema × JValue) :=
      match o.optional_top_level_keys with
      | some okeys@(_ :: _) => processOptionalKeys schema payload okeys
      | _ => .ok (schema, payload)
    match step1 with
    | .error e => .error e
    | .ok (schema1, payload1) =>
      match o.json_path with
      | some p =>
        if p ≠ "" then
          let envSchema := (o.envelope_keys.getD [])
          let schema2 :=
            if !envSchema.isEmpty then
              dictUpdate schema1 "stream_log_envelope" (.nested envSchema)
            else schema1
          let envelope : JObj :=
            if !envSchema.isEmpty then
              let ekeys := keysOf envSchema
              (ekeys.zip (envelopeFind ekeys payload1)).map (fun kv => (kv.1, kv.2))
            else []
          match jsonpathFind p payload1 with
          | none => .error ()
          | some found =>
            let recs : Except Unit (List JValue) :=
              found.foldr (fun r acc =>
                match acc with
                | .error e => .error e
                | .ok rs =>
                  if !envelope.isEmpty then
                    match r with
                    | .obj fs =>
                      .ok (.obj (dictUpdate fs "stream_log_envelope" (.obj envelope)) :: rs)
                    | _ => .error ()
                  else .ok (r :: rs)) (.ok [])
            match recs with
            | .error e => .error e
            | .ok rs =>
              if rs.isEmpty then .ok (schema2, [payload1])
              else .ok (schema2, rs)
        else .ok (schema1, [payload1])
      | none => .ok (schema1, [payload1])

/-- `json_record.keys()`: a non-mapping record raises `AttributeError`. -/
def jKeys : JValue → Except Unit (List String)
  | .obj fs => .ok (keysOf fs)
  | _ => .error ()

/-- The inner loop of `_key_check` over `self.schema.iteritems()` after a
top-level key-set match: `schema_match` starts `True` and each schema
field whose descriptor is a truthy dict overwrites it with that field's
sub-key-set comparison. -/
def subKeyCheck (schema : Schema) (recFields : JObj) : Except Unit Bool :=
  schema.foldlM
    (fun sm kv =>
      match kv.2 with
      | .nested nfs =>
        if !nfs.isEmpty then
          match lookupField recFields kv.1 with
          | none => .error ()
          | some sub =>
            match jKeys sub with
            | .error e => .error e
            | .ok sks => .ok (keySetEq sks (keysOf nfs))
        else .ok sm
      | _ => .ok sm)
    true

/-- The loop of `JSONParser._key_check` over the candidate records,
threading `schema_match` exactly as the source does: the flag is
initialised once, set by a matching record, and — crucially — left at its
previous value when a record's key set does not match. -/
def keyCheckLoop (schema : Schema) : List JValue → Bool → Except Unit (List JValue)
  | [], _ => .ok []
  | rec :: rest, schemaMatch =>
    match jKeys rec with
    | .error e => .error e
    | .ok jks =>
      let smE : Except Unit Bool :=
        if keySetEq jks (keysOf schema) then
          match rec with
          | .obj fs => subKeyCheck schema fs
          | _ => .error ()
        else .ok schemaMatch
      match smE with
      | .error e => .error e
      | .ok sm =>
        match keyCheckLoop schema rest sm with
        | .error e => .error e
        | .ok tail => if sm then .ok (rec :: tail) else .ok tail

/-- `JSONParser._key_check` (with `schema_match = False` initially). -/
def keyCheck (schema : Schema) (records : List JValue) : Except Unit (List JValue) :=
  keyCheckLoop schema records false

/-- Input to `JSONParser.parse`: raw text or an already-decoded value. -/
inductive Input where
  | text (s : String)
  | value (v : JValue)

/-- `JSONParser.parse`: decode text (a decode failure returns `False`),
expand candidates with `_parse_records`, filter with `_key_check`, and
return the survivors when there are any, `False` otherwise. -/
def parse (schema : Schema) (o : JSONOptions) (data : Input) :
    Except Unit (Schema × ParseOutcome) :=
  let payloadE : Except Unit (Schema × Option JValue) :=
    match data with
    | .text s =>
      match jsonLoads s with
      | none => .ok (schema, none)
      | some v => .ok (schema, some v)
    | .value v => .ok (schema, some v)
  match payloadE with
  | .error e => .error e
  | .ok (schema, none) => .ok (schema, .failure)
  | .ok (schema, some payload) =>
    match parseRecords schema o payload with
    | .error e => .error e
    | .ok (schema1, candidates) =>
      match keyCheck schema1 candidates with
      | .error e => .error e
      | .ok valid =>
        if !valid.isEmpty then .ok (schema1, .records valid)
        else .ok (schema1, .failure)

end JSONParser

/-! ### `GzipJSONParser`

`zlib.decompress(data, 47)` is a library call (window bits 47 requests
zlib/gzip header auto-detection, so both framings decompress); it is
modelled as an abstract decompression function where `none` stands for a
raised `zlib.error`, which the source catches and turns into `False`.
On success the source delegates to `JSONParser.parse` on the decompressed
text. -/
def GzipJSONParser.parse (decompress : String → Option String)
    (schema : Schema) (o : JSONOptions) (data : String) :
    Except Unit (Schema × ParseOutcome) :=
  match decompress data with
  | none => .ok (schema, .failure)
  | some s => JSONParser.parse schema o (.text s)

/-! ### Character-list splitting

Python's `str.split(sep)` for a non-empty separator, implemented on
character lists (so that everything evaluates by kernel reduction). -/

def startsWithL : List Char → List Char → Bool
  | [], _ => true
  | _ :: _, [] => false
  | p :: ps, c :: cs => (p == c) && startsWithL ps cs

/-- Split worker; fuel of one unit per character is ample and `splitOnL`
supplies enough never to hit 0. -/
def splitOnCore (sep : List Char) : Nat → List Char → List Char → List (List Char)
  | 0, cs, cur => [cur.reverse ++ cs]
  | fuel + 1, cs, cur =>
    match cs with
    | [] => [cur.reverse]
    | c :: rest =>
      if startsWithL sep cs then
        cur.reverse :: splitOnCore sep fuel (cs.drop sep.length) []
      else splitOnCore sep fuel rest (c :: cur)

/-- `s.split(sep)` for non-empty `sep` (an empty separator raises
`ValueError` in Python; it is mapped to the whole input here and never
arises in the claims). -/
def splitOnL (sep cs : List Char) : List (List Char) :=
  if sep.isEmpty then [cs] else splitOnCore sep (cs.length + 1) cs []

/-- `sep.join(parts)`. -/
def joinSep (sep : List Char) : List (List Char) → List Char
  | [] => []
  | [x] => x
  | x :: xs => x ++ sep ++ joinSep sep xs

/-! ### `CSVParser` -/

structure CSVOptions where
  delimiter : Option String := none

/-- Model of iterating `csv.reader(StringIO(data), delimiter=...)` for
payloads without quoting (no claim exercises quoted fields): the data is
split into lines — a trailing newline does not produce an extra line and a
blank line yields the empty row — and each line is split on the
delimiter. -/
def csvRows (delim : String) (data : String) : List (List String) :=
  if data = "" then []
  else
    let chars := data.data
    let trimmed := match chars.getLast? with
      | some '\n' => chars.dropLast
      | _ => chars
    (splitOnL ['\n'] trimmed).map (fun line =>
      if line.isEmpty then []
      else (splitOnL delim.data line).map (fun f => (⟨f⟩ : String)))

/-- The row loop of `CSVParser.parse`: the first row whose field count
differs from the schema size fails the entire parse; otherwise each row is
zipped positionally with the schema's field names. -/
def csvLoop (schema : Schema) : List (List String) → Option (List JValue)
  | [] => some []
  | row :: rest =>
    if row.length ≠ schema.length then none
    else
      match csvLoop schema rest with
      | none => none
      | some rs =>
        some (.obj (((keysOf schema).zip row).map (fun kv => (kv.1, JValue.str kv.2))) :: rs)

/-- `CSVParser.parse` (the reader object itself is always truthy, so the
`if not reader` branch of the source is dead). -/
def CSVParser.parse (schema : Schema) (o : CSVOptions) (data : String) : ParseOutcome :=
  let delim := o.delimiter.getD ","
  match csvLoop schema (csvRows delim data) with
  | none => .failure
  | some rs => .records rs

/-! ### `KVParser` -/

structure KVOptions where
  delimiter : Option String := none
  separator : Option String := none

/-- Model of `re.match('.+{separator}.+', field)` for a non-empty,
regex-literal separator: the field must decompose as
`left ++ separator ++ right` with `left` and `right` non-empty; the
candidate decompositions are exactly the separator boundaries of
`field.split(separator)`. -/
def kvRegexMatch (sep field : List Char) : Bool :=
  let parts := splitOnL sep field
  (List.range parts.length).any (fun i =>
    decide (0 < i) &&
    !(joinSep sep (parts.take i)).isEmpty &&
    !(joinSep sep (parts.drop i)).isEmpty)

/-- The field loop of `KVParser.parse`.  A field that fails the regex is
skipped (only logged).  A field that matches is split on the separator and
unpacked into `key, value`; when that split yields more than two pieces
(e.g. `a=b=c`) the unpacking raises `ValueError`, which the source does
not catch — modelled as an error.  A duplicate key stores the value under
the schema's field name at the field's positional index instead. -/
def kvLoop (schemaKeys : List String) (sep : List Char) :
    List (List Char) → Nat → JObj → Except Unit JObj
  | [], _, acc => .ok acc
  | field :: rest, idx, acc =>
    if kvRegexMatch sep field then
      match splitOnL sep field with
      | [k, v] =>
        if hasKey acc ⟨k⟩ then
          kvLoop schemaKeys sep rest (idx + 1)
            (dictUpdate acc (schemaKeys.getD idx "") (.str ⟨v⟩))
        else
          kvLoop schemaKeys sep rest (idx + 1) (dictUpdate acc ⟨k⟩ (.str ⟨v⟩))
      | _ => .error ()
    else kvLoop schemaKeys sep rest (idx + 1) acc

/-- `KVParser.parse`: split on the delimiter, drop empty fields, fail when
the field count differs from the schema size, then accumulate key/value
pairs; always exactly one record on success. -/
def KVParser.parse (schema : Schema) (o : KVOptions) (data : String) :
    Except Unit ParseOutcome :=
  let delim := o.delimiter.getD " "
  let sep := o.separator.getD "="
  let fields := (splitOnL delim.data data.data).filter (fun f => !f.isEmpty)
  if fields.length ≠ schema.length then .ok .failure
  else
    match kvLoop (keysOf schema) sep.data fields 0 [] with
    | .error e => .error e
    | .ok payload => .ok (.records [.obj payload])

/-! ### `SyslogParser`

The fixed pattern

  `(?P<timestamp>^\w{3}\s\d{2}\s(\d{2}:?)+)\s(?P<host>(\w[-]*)+)\s`
  `(?P<application>\w+)(\[\w+\])*:\s(?P<message>.*$)`

is translated into a deterministic matcher.  The `^` anchor restricts
`re.search` to the start of the string.  Each component is followed by a
character it can never match (`\s` after digit/colon runs, `:`/`[` after
word runs), so greedy maximal-munch agrees with the regex's backtracking
search; the one place optionality matters — the trailing `:?` of a time
group — is resolved below exactly as the regex does. -/

def isWordChar (c : Char) : Bool := c.isAlphanum || c = '_'

def isSpaceChar (c : Char) : Bool :=
  c = ' ' || c = '\t' || c = '\n' || c = '\r' || c = Char.ofNat 11 || c = Char.ofNat 12

/-- `(\d{2}:?)+`: one or more groups of two digits and an optional colon.
Returns the consumed characters and the rest.  After a pair, a colon is
consumed when present; the repetition continues exactly when two more
digits follow (stopping instead can never satisfy the following `\s`). -/
def timeGroups (cs : List Char) : Option (List Char × List Char) :=
  match cs with
  | c1 :: c2 :: ':' :: d1 :: d2 :: rest2 =>
    if c1.isDigit && c2.isDigit then
      if d1.isDigit && d2.isDigit then
        match timeGroups (d1 :: d2 :: rest2) with
        | some (g, r) => some (c1 :: c2 :: ':' :: g, r)
        | none => none
      else some ([c1, c2, ':'], d1 :: d2 :: rest2)
    else none
  | c1 :: c2 :: ':' :: rest2 =>
    if c1.isDigit && c2.isDigit then some ([c1, c2, ':'], rest2) else none
  | c1 :: c2 :: d1 :: d2 :: rest2 =>
    if c1.isDigit && c2.isDigit then
      if d1.isDigit && d2.isDigit then
        match timeGroups (d1 :: d2 :: rest2) with
        | some (g, r) => some (c1 :: c2 :: g, r)
        | none => none
      else some ([c1, c2], d1 :: d2 :: rest2)
    else none
  | c1 :: c2 :: rest =>
    if c1.isDigit && c2.isDigit then some ([c1, c2], rest) else none
  | _ => none

/-- Consume the `\w+\]` tail of a `[pid]` group (at least one word
character already required by the caller's first step). -/
def pidWordRest : List Char → Option (List Char)
  | [] => none
  | ']' :: cs => some cs
  | c :: cs => if isWordChar c then pidWordRest cs else none

/-- `(\[\w+\])*` worker: consume zero or more well-formed `[pid]` groups.
A malformed group is left unconsumed; the required `:` then fails on `[`,
exactly as the regex's backtracking does.  Fuel of one unit per character
is ample (each group consumes at least three characters). -/
def pidGroupsF : Nat → List Char → List Char
  | 0, cs => cs
  | fuel + 1, cs =>
    match cs with
    | '[' :: c :: rest =>
      if isWordChar c then
        match pidWordRest rest with
        | some rest2 => pidGroupsF fuel rest2
        | none => cs
      else cs
    | _ => cs

def pidGroups (cs : List Char) : List Char :=
  pidGroupsF (cs.length + 1) cs

/-- `.*$` (no MULTILINE): the remaining text must be newline-free, apart
from one optional newline at the very end, which is excluded from the
group. -/
def messageGroup (cs : List Char) : Option (List Char) :=
  let body := cs.takeWhile (fun c => c ≠ '\n')
  match cs.dropWhile (fun c => c ≠ '\n') with
  | [] => some body
  | ['\n'] => some body
  | _ => none

/-- The whole syslog pattern: on success, the four named capture groups
`(timestamp, host, application, message)`. -/
def syslogMatch (data : String) : Option (String × String × String × String) :=
  match data.data with
  | m1 :: m2 :: m3 :: s1 :: d1 :: d2 :: s2 :: rest =>
    if isWordChar m1 && isWordChar m2 && isWordChar m3 &&
        isSpaceChar s1 && d1.isDigit && d2.isDigit && isSpaceChar s2 then
      match timeGroups rest with
      | none => none
      | some (tg, r1) =>
        match r1 with
        | sp1 :: r2 =>
          if isSpaceChar sp1 then
            let hostRun := r2.takeWhile (fun c => isWordChar c || c = '-')
            let r3 := r2.dropWhile (fun c => isWordChar c || c = '-')
            if hostRun.isEmpty || !(isWordChar (hostRun.headD ' ')) then none
            else
              match r3 with
              | sp2 :: r4 =>
                if isSpaceChar sp2 then
                  let appRun := r4.takeWhile isWordChar
                  let r5 := r4.dropWhile isWordChar
                  if appRun.isEmpty then none
                  else
                    match pidGroups r5 with
                    | ':' :: sp3 :: r6 =>
                      if isSpaceChar sp3 then
                        match messageGroup r6 with
                        | none => none
                        | some msg =>
                          some (⟨[m1, m2, m3, s1, d1, d2, s2] ++ tg⟩,
                                ⟨hostRun⟩, ⟨appRun⟩, ⟨msg⟩)
                      else none
                    | _ => none
                else none
              | [] => none
          else none
        | [] => none
    else none
  | _ => none

/-- `match.group(key)`: the four named groups; any other name raises
(`IndexError`). -/
def syslogGroup (g : String × String × String × String) (k : String) : Option String :=
  if k = "timestamp" then some g.1
  else if k = "host" then some g.2.1
  else if k = "application" then some g.2.2.1
  else if k = "message" then some g.2.2.2
  else none

/-- Total variant of `syslogGroup` used in theorem statements. -/
def syslogGroupD (g : String × String × String × String) (k : String) : String :=
  (syslogGroup g k).getD ""

/-- The record comprehension `{key: match.group(key) for key in keys}`:
builds one binding per schema key; a key that is not a capture-group name
raises (`none` propagates to an error in `parse`). -/
def syslogProject (g : String × String × String × String) :
    List String → Option (List (String × JValue))
  | [] => some []
  | k :: rest =>
    match syslogGroup g k with
    | none => none
    | some v =>
      match syslogProject g rest with
      | none => none
      | some tail => some ((k, JValue.str v) :: tail)

/-- `SyslogParser.parse`: no regex match returns `False`; on a match the
record maps each schema field name to its capture group of the same name
(a schema field that is not a group name raises). -/
def SyslogParser.parse (schema : Schema) (data : String) : Except Unit ParseOutcome :=
  match syslogMatch data with
  | none => .ok .failure
  | some g =>
    match syslogProject g (keysOf schema) with
    | none => .error ()
    | some fields => .ok (.records [.obj fields])

end StreamAlert

namespace StreamAlert

/-! ## Shared helper lemmas -/

/-- A successful `JSONParser.parse` never carries an empty record list:
the final branch of the source returns the survivors only when
`len(valid_records)` is non-zero. -/
theorem jsonParse_records_ne_nil {schema : Schema} {o : JSONOptions}
    {data : JSONParser.Input} {s1 : Schema} {rs : List JValue}
    (h : JSONParser.parse schema o data = .ok (s1, .records rs)) : rs ≠ [] := by
  unfold JSONParser.parse at h
  repeat' split at h
  any_goals simp_all
  all_goals repeat' split at h
  all_goals simp_all [List.isEmpty_iff]

/-- `csvLoop` yields one record per row. -/
theorem csvLoop_length {schema : Schema} :
    ∀ {rows : List (List String)} {rs : List JValue},
      csvLoop schema rows = some rs → rs.length = rows.length := by
  intro rows
  induction rows with
  | nil => intro rs h; simp [csvLoop] at h; simp [← h]
  | cons row rest ih =>
    intro rs h
    simp only [csvLoop] at h
    split at h
    · exact absurd h (by simp)
    · split at h
      · exact absurd h (by simp)
      · rename_i rs1 heq
        simp only [Option.some.injEq] at h
        subst h
        simp [ih heq]

/-! ## Claim theorems -/

/-- Claim C1.  Evaluating `JSONParser.parse` (through `_key_check`) at a
payload whose `json_path` extraction yields one matching and one
non-matching candidate: the source's `schema_match` flag, set `True` by the
first record, persists across the loop, so the second record is returned
even though its key set differs from the schema's.  This contradicts the
claim (and the source's own docstring) that records failing the key check
are excluded. -/
theorem c1_keyCheck_stale_flag :
    JSONParser.parse [("a", SchemaType.string)]
        { json_path := some "recs[*]" }
        (.value (.obj [("recs", .list [.obj [("a", .str "1")], .obj [("b", .str "2")]])])) =
      .ok ([("a", SchemaType.string)],
        .records [.obj [("a", .str "1")], .obj [("b", .str "2")]])
    ∧ keySetEq (keysOf [(("b" : String), JValue.str "2")])
        (keysOf [(("a" : String), SchemaType.string)]) = false :=
  ⟨rfl, rfl⟩

/-- Claim C3.  A key-value field containing more than one separator
occurrence passes the `.+=.+` regex check, but the subsequent two-place
unpacking of `field.split(separator)` raises an uncaught `ValueError`:
`parse("a=b=c")` with a one-field schema is a thrown fault, not a skipped
field or a failure value. -/
theorem c3_kv_multi_separator_raises :
    KVParser.parse [("k", SchemaType.string)] {} "a=b=c" = .error ()
    ∧ kvRegexMatch ['='] "a=b=c".data = true
    ∧ splitOnL ['='] "a=b=c".data = [['a'], ['b'], ['c']] :=
  ⟨rfl, rfl, rfl⟩

/-- Claim C6.  The gzip-JSON parser is the JSON parser composed with
decompression: whenever the (abstractly modelled, auto-detect-framing)
decompressor recovers the payload, `parse` agrees with `JSONParser.parse`
on that payload; a decompression failure yields the failure value; and
`type()` reports `"json"`. -/
theorem c6_gzip_delegates (decompress : String → Option String)
    (schema : Schema) (o : JSONOptions) (c s : String) :
    (decompress c = some s →
      GzipJSONParser.parse decompress schema o c = JSONParser.parse schema o (.text s))
    ∧ (decompress c = none →
      GzipJSONParser.parse decompress schema o c = .ok (schema, .failure))
    ∧ GzipJSONParser.type = "json" := by
  refine ⟨fun h => ?_, fun h => ?_, rfl⟩
  · unfold GzipJSONParser.parse
    rw [h]
  · unfold GzipJSONParser.parse
    rw [h]

/-- Witness for C6 at concrete inputs. -/
theorem c6_witness :
    GzipJSONParser.parse (fun x => some x) [] {} "null" =
      JSONParser.parse [] {} (.text "null")
    ∧ GzipJSONParser.parse (fun _ => none) [] {} "x" = .ok ([], .failure) :=
  ⟨(c6_gzip_delegates (fun x => some x) [] {} "null" "null").1 rfl,
   (c6_gzip_delegates (fun _ => none) [] {} "x" "x").2.1 rfl⟩

/-- Claim C2, counterexample: the CSV parser applied to the empty payload
iterates over zero rows and returns the empty record list — neither a
non-empty list nor the failure sentinel, contradicting the claim. -/
theorem c2_counterexample :
    CSVParser.parse [("x", SchemaType.string)] {} "" = .records [] := rfl

/-- Claim C2 as amended: every successful `parse` of the JSON, gzip-JSON,
key-value and syslog parsers returns a non-empty record list (otherwise
the failure sentinel, or an uncaught fault), and the CSV parser returns an
empty record list only when the payload yields no rows at all. -/
theorem c2_nonempty_or_failure :
    (∀ (schema : Schema) (o : JSONOptions) (data : JSONParser.Input)
        (s1 : Schema) (rs : List JValue),
      JSONParser.parse schema o data = .ok (s1, .records rs) → rs ≠ [])
    ∧ (∀ (dec : String → Option String) (schema : Schema) (o : JSONOptions)
        (data : String) (s1 : Schema) (rs : List JValue),
      GzipJSONParser.parse dec schema o data = .ok (s1, .records rs) → rs ≠ [])
    ∧ (∀ (schema : Schema) (o : KVOptions) (data : String) (rs : List JValue),
      KVParser.parse schema o data = .ok (.records rs) → rs ≠ [])
    ∧ (∀ (schema : Schema) (data : String) (rs : List JValue),
      SyslogParser.parse schema data = .ok (.records rs) → rs ≠ [])
    ∧ (∀ (schema : Schema) (o : CSVOptions) (data : String) (rs : List JValue),
      CSVParser.parse schema o data = .records rs → rs = [] →
        csvRows (o.delimiter.getD ",") data = []) := by
  refine ⟨fun schema o data s1 rs h => jsonParse_records_ne_nil h,
          fun dec schema o data s1 rs h => ?_, fun schema o data rs h => ?_,
          fun schema data rs h => ?_, fun schema o data rs h hnil => ?_⟩
  · unfold GzipJSONParser.parse at h
    split at h
    · simp_all
    · exact jsonParse_records_ne_nil h
  · unfold KVParser.parse at h
    dsimp only at h
    repeat' split at h
    all_goals first
      | (cases h; simp)
      | simp_all
  · unfold SyslogParser.parse at h
    repeat' split at h
    all_goals first
      | (cases h; simp)
      | simp_all
  · unfold CSVParser.parse at h
    dsimp only at h
    split at h
    · simp_all
    · rename_i rs1 heq
      have hlen := csvLoop_length heq
      simp only [ParseOutcome.records.injEq] at h
      subst h
      subst hnil
      simpa using hlen.symm

/-- Witness for C2 at concrete inputs, one per parser. -/
theorem c2_witness :
    ([JValue.obj [("a", JValue.str "b")]] : List JValue) ≠ []
    ∧ ([JValue.obj []] : List JValue) ≠ []
    ∧ ([JValue.obj [("a", JValue.str "1")]] : List JValue) ≠ []
    ∧ ([JValue.obj [("host", JValue.str "host")]] : List JValue) ≠ []
    ∧ csvRows "," "" = [] := by
  refine ⟨c2_nonempty_or_failure.1 [("a", .string)] {} (.value (.obj [("a", .str "b")]))
            [("a", .string)] _ rfl,
          c2_nonempty_or_failure.2.1 (fun _ => some ⟨['{', '}']⟩) [] {} "x" [] _ rfl,
          c2_nonempty_or_failure.2.2.1 [("a", .string)] {} "a=1" _ rfl,
          c2_nonempty_or_failure.2.2.2.1 [("host", .string)]
            "Jan 10 19:35:33 host sudo: session opened" _ rfl,
          c2_nonempty_or_failure.2.2.2.2 [] {} "" [] rfl rfl⟩

/-- Every pattern-set entry weighs at least one, so the list is never
longer than its weight. -/
theorem length_le_weightList (ps : PatternSet) : ps.length ≤ weightList ps := by
  induction ps with
  | nil => simp [weightList]
  | cons e rest ih =>
    obtain ⟨f, v⟩ := e
    have hv : 1 ≤ v.weight := by cases v <;> simp [PatternVal.weight]
    simp only [weightList, List.length_cons]
    omega

/-- An entry of a pattern set is skipped by the loop when its value is
neither a list nor a mapping, or it is a glob list whose field is missing
from the record. -/
def skippedEntry (fs : JObj) (e : String × PatternVal) : Prop :=
  e.2 = PatternVal.other ∨
    ∃ pats, e.2 = PatternVal.globs pats ∧ lookupField fs e.1 = none

/-- The loop leaves the accumulated results untouched over a run of
skipped entries. -/
theorem mlpLoop_all_skipped (fs : JObj) :
    ∀ (ps : PatternSet) (fuel : Nat) (acc : List Bool),
      ps.length < fuel →
      (∀ e ∈ ps, skippedEntry fs e) →
      mlpLoop fuel (.obj fs) ps acc = .ok (acc.all id) := by
  intro ps
  induction ps with
  | nil =>
    intro fuel acc hf _
    cases fuel with
    | zero => omega
    | succ m => simp [mlpLoop]
  | cons e rest ih =>
    intro fuel acc hf hskip
    cases fuel with
    | zero => omega
    | succ m =>
      obtain ⟨f, v⟩ := e
      have hrest : ∀ e ∈ rest, skippedEntry fs e := fun e he => hskip e (by simp [he])
      have hflen : rest.length < m := by
        simp only [List.length_cons] at hf
        omega
      rcases hskip (f, v) (by simp) with hother | ⟨pats, hg, hlk⟩
      · simp only at hother
        subst hother
        simp only [mlpLoop]
        exact ih m acc hflen hrest
      · simp only at hg
        subst hg
        simp only [mlpLoop, hlk]
        exact ih m acc hflen hrest

/-- After a run of skipped entries, a nested entry whose field is missing
from the record faults (`KeyError` from the unguarded lookup). -/
theorem mlpLoop_nested_missing (fs : JObj) (f : String) (sub rest : PatternSet)
    (hmiss : lookupField fs f = none) :
    ∀ (pre : PatternSet) (fuel : Nat) (acc : List Bool),
      pre.length < fuel →
      (∀ e ∈ pre, skippedEntry fs e) →
      mlpLoop fuel (.obj fs) (pre ++ (f, PatternVal.nested sub) :: rest) acc = .error () := by
  intro pre
  induction pre with
  | nil =>
    intro fuel acc hf _
    cases fuel with
    | zero => omega
    | succ m => simp [mlpLoop, hmiss]
  | cons e pre1 ih =>
    intro fuel acc hf hskip
    cases fuel with
    | zero => omega
    | succ m =>
      obtain ⟨f1, v1⟩ := e
      have hrest : ∀ e ∈ pre1, skippedEntry fs e := fun e he => hskip e (by simp [he])
      have hflen : pre1.length < m := by
        simp only [List.length_cons] at hf
        omega
      rcases hskip (f1, v1) (by simp) with hother | ⟨pats, hg, hlk⟩
      · simp only at hother
        subst hother
        simp only [List.cons_append, mlpLoop]
        exact ih m acc hflen hrest
      · simp only at hg
        subst hg
        simp only [List.cons_append, mlpLoop, hlk]
        exact ih m acc hflen hrest

/-- Claim C4, counterexample: a non-empty pattern set whose only field is
missing from the record collects no per-field results, and `all([])` is
`True` in Python — `matched_log_pattern` returns `True`, not the `False`
the claim states. -/
theorem c4_counterexample :
    matchedLogPattern (.obj []) [("f", PatternVal.globs ["p*"])] = .ok true := rfl

/-- Claim C4 as amended: for every record and non-empty pattern set in
which every field is skipped (its value is not a list, or its glob-listed
field is missing from the record), `matched_log_pattern` returns `True` —
the conjunction over the empty result list is vacuously true. -/
theorem c4_all_skipped_true (fs : JObj) (ps : PatternSet) (hne : ps ≠ [])
    (hskip : ∀ e ∈ ps, skippedEntry fs e) :
    matchedLogPattern (.obj fs) ps = .ok true := by
  unfold matchedLogPattern
  have hne' : ps.isEmpty = false := by simpa [List.isEmpty_iff] using hne
  have hlen : ps.length < weightList ps + 1 :=
    Nat.lt_succ_of_le (length_le_weightList ps)
  simp [hne', isMapping, mlpLoop_all_skipped fs ps (weightList ps + 1) [] hlen hskip]

/-- Witness for the amended C4 at a concrete record and pattern set. -/
theorem c4_witness :
    matchedLogPattern (.obj [("g", JValue.int 5)])
      [("h", PatternVal.globs ["*"]), ("i", PatternVal.other)] = .ok true := by
  refine c4_all_skipped_true [("g", JValue.int 5)] _ (by simp) ?_
  intro e he
  simp only [List.mem_cons, List.not_mem_nil, or_false] at he
  rcases he with rfl | rfl
  · exact Or.inr ⟨["*"], rfl, rfl⟩
  · exact Or.inl rfl

/-- Claim C10: the missing-field skip applies only to the glob branch; in
the nested branch the `record[field]` lookup is unguarded, so a pattern
set that reaches a nested entry whose field is absent from the record
faults instead of skipping or returning `False`, while the same absent
field under a glob list is skipped. -/
theorem c10_nested_missing_faults (fs : JObj) (pre rest sub : PatternSet) (f : String)
    (hmiss : lookupField fs f = none)
    (hpre : ∀ e ∈ pre, skippedEntry fs e) :
    matchedLogPattern (.obj fs) (pre ++ (f, PatternVal.nested sub) :: rest) = .error ()
    ∧ ∀ pats, matchedLogPattern (.obj fs) [(f, PatternVal.globs pats)] = .ok true := by
  constructor
  · unfold matchedLogPattern
    have hne' : (pre ++ (f, PatternVal.nested sub) :: rest).isEmpty = false := by
      simp [List.isEmpty_iff]
    have hlen : pre.length < weightList (pre ++ (f, PatternVal.nested sub) :: rest) + 1 := by
      have h1 : pre.length ≤ (pre ++ (f, PatternVal.nested sub) :: rest).length := by
        simp
      have h2 := length_le_weightList (pre ++ (f, PatternVal.nested sub) :: rest)
      omega
    simp [hne', isMapping,
      mlpLoop_nested_missing fs f sub rest hmiss pre _ [] hlen hpre]
  · intro pats
    unfold matchedLogPattern
    have hlen : ([(f, PatternVal.globs pats)] : PatternSet).length <
        weightList [(f, PatternVal.globs pats)] + 1 :=
      Nat.lt_succ_of_le (length_le_weightList _)
    have hsk : ∀ e ∈ ([(f, PatternVal.globs pats)] : PatternSet), skippedEntry fs e := by
      intro e he
      simp only [List.mem_singleton] at he
      subst he
      exact Or.inr ⟨pats, rfl, hmiss⟩
    simp [isMapping, mlpLoop_all_skipped fs _ _ [] hlen hsk]

/-- Witness for C10 at a concrete record and pattern set. -/
theorem c10_witness :
    matchedLogPattern (.obj []) [("k", PatternVal.nested [("a", PatternVal.globs ["x"])])] =
      .error ()
    ∧ matchedLogPattern (.obj []) [("k", PatternVal.globs ["x"])] = .ok true := by
  have h := c10_nested_missing_faults [] [] [] [("a", PatternVal.globs ["x"])] "k" rfl
    (by simp)
  exact ⟨by simpa using h.1, h.2 ["x"]⟩

/-- Claim C5, counterexample: an `optional_top_level_keys` entry whose
declared type is a *non-empty* nested schema does not default to an empty
mapping — the `default_optional_values` chain compares only against the
empty `OrderedDict`, falls through, and binds the field to `None`. -/
theorem c5_counterexample :
    JSONParser.parseRecords []
        { optional_top_level_keys := some [("x", SchemaType.nested [("a", SchemaType.string)])] }
        (.obj []) =
      .ok ([("x", SchemaType.nested [("a", SchemaType.string)])], [.obj [("x", JValue.null)]])
    ∧ JValue.null ≠ JValue.obj [] :=
  ⟨rfl, nofun⟩

/-- Claim C5 as amended: an absent optional field is bound to
`default_optional_values` of its declared type and the entry is merged
into the parser's schema; the defaults are empty string, `0`, `0.0`,
`False`, the empty list for the empty list marker and the empty mapping
for the *empty* nested-schema descriptor, while a non-empty nested schema
(or non-empty list marker) descriptor falls through to `None`. -/
theorem c5_optional_defaults (schema : Schema) (fs : JObj) (k : String) (ty : SchemaType)
    (habs : lookupField fs k = none) :
    JSONParser.parseRecords schema { optional_top_level_keys := some [(k, ty)] } (.obj fs) =
      .ok (dictUpdate schema k ty, [.obj (fs ++ [(k, JSONParser.defaultOptionalValues ty)])])
    ∧ JSONParser.defaultOptionalValues .string = .str ""
    ∧ JSONParser.defaultOptionalValues .integer = .int 0
    ∧ JSONParser.defaultOptionalValues .float = .float 0
    ∧ JSONParser.defaultOptionalValues .boolean = .bool false
    ∧ JSONParser.defaultOptionalValues (.listMarker []) = .list []
    ∧ JSONParser.defaultOptionalValues (.nested []) = .obj []
    ∧ (∀ nfs, nfs ≠ [] → JSONParser.defaultOptionalValues (.nested nfs) = .null)
    ∧ (∀ es, es ≠ [] → JSONParser.defaultOptionalValues (.listMarker es) = .null) := by
  refine ⟨?_, rfl, rfl, rfl, rfl, rfl, rfl, fun nfs h => ?_, fun es h => ?_⟩
  · unfold JSONParser.parseRecords
    simp [JSONOptions.isEmptyOpts, JSONParser.processOptionalKeys, JSONParser.pyContains,
      hasKey, habs]
  · cases nfs with
    | nil => exact absurd rfl h
    | cons a l => rfl
  · cases es with
    | nil => exact absurd rfl h
    | cons a l => rfl

/-- Witness for the amended C5 at a concrete schema and payload. -/
theorem c5_witness :
    JSONParser.parseRecords [] { optional_top_level_keys := some [("count", SchemaType.integer)] }
        (.obj []) =
      .ok ([("count", SchemaType.integer)], [.obj [("count", JValue.int 0)]]) := by
  have h := (c5_optional_defaults [] [] "count" SchemaType.integer rfl).1
  simpa [dictUpdate] using h

/-- A row with the wrong field count fails the whole CSV loop. -/
theorem csvLoop_bad_row {schema : Schema} :
    ∀ {rows : List (List String)},
      (∃ row ∈ rows, row.length ≠ schema.length) → csvLoop schema rows = none := by
  intro rows
  induction rows with
  | nil => rintro ⟨row, hmem, _⟩; simp at hmem
  | cons row rest ih =>
    rintro ⟨r, hmem, hne⟩
    simp only [csvLoop]
    by_cases hlen : row.length = schema.length
    · have hr : r ∈ rest := by
        rcases List.mem_cons.mp hmem with rfl | h
        · exact absurd hlen hne
        · exact h
      simp [hlen, ih ⟨r, hr, hne⟩]
    · simp [hlen]

/-- When every row has the right field count, the CSV loop zips each row
positionally with the schema's field names. -/
theorem csvLoop_all_ok {schema : Schema} :
    ∀ {rows : List (List String)},
      (∀ row ∈ rows, row.length = schema.length) →
      csvLoop schema rows = some (rows.map (fun row =>
        .obj (((keysOf schema).zip row).map (fun kv => (kv.1, JValue.str kv.2))))) := by
  intro rows
  induction rows with
  | nil => intro _; rfl
  | cons row rest ih =>
    intro h
    have hrow := h row (by simp)
    simp only [csvLoop, hrow, ih (fun r hr => h r (by simp [hr])), List.map_cons]
    simp

/-- Claim C7: a single row whose field count differs from the schema size
fails the entire CSV parse (no records from other rows are returned);
otherwise every row is mapped positionally onto the schema's field names
in declared order, as in the two concrete examples from the
specification. -/
theorem c7_csv_all_or_nothing (schema : Schema) (o : CSVOptions) (data : String) :
    ((∃ row ∈ csvRows (o.delimiter.getD ",") data, row.length ≠ schema.length) →
      CSVParser.parse schema o data = .failure)
    ∧ ((∀ row ∈ csvRows (o.delimiter.getD ",") data, row.length = schema.length) →
      CSVParser.parse schema o data = .records
        ((csvRows (o.delimiter.getD ",") data).map (fun row =>
          .obj (((keysOf schema).zip row).map (fun kv => (kv.1, JValue.str kv.2))))))
    ∧ CSVParser.parse [("x", SchemaType.string), ("y", SchemaType.string),
        ("z", SchemaType.string)] {} "a,b,c" =
        .records [.obj [("x", .str "a"), ("y", .str "b"), ("z", .str "c")]]
    ∧ CSVParser.parse [("x", SchemaType.string), ("y", SchemaType.string),
        ("z", SchemaType.string)] {} "a,b" = .failure := by
  refine ⟨fun hbad => ?_, fun hok => ?_, rfl, rfl⟩
  · unfold CSVParser.parse
    dsimp only
    rw [csvLoop_bad_row hbad]
  · unfold CSVParser.parse
    dsimp only
    rw [csvLoop_all_ok hok]

/-- Witness for C7 at the specification's concrete inputs. -/
theorem c7_witness :
    CSVParser.parse [("x", SchemaType.string), ("y", SchemaType.string),
        ("z", SchemaType.string)] {} "a,b" = .failure
    ∧ CSVParser.parse [("x", SchemaType.string), ("y", SchemaType.string),
        ("z", SchemaType.string)] {} "a,b,c" =
      .records ((csvRows "," "a,b,c").map (fun row =>
        .obj (((keysOf [("x", SchemaType.string), ("y", SchemaType.string),
          ("z", SchemaType.string)]).zip row).map (fun kv => (kv.1, JValue.str kv.2))))) :=
  ⟨(c7_csv_all_or_nothing [("x", .string), ("y", .string), ("z", .string)] {} "a,b").1
      ⟨["a", "b"], by decide, by decide⟩,
   (c7_csv_all_or_nothing [("x", .string), ("y", .string), ("z", .string)] {} "a,b,c").2.1
      (by decide)⟩

/-- Claim C8: in the KV field loop a well-shaped field with a fresh key is
stored under that key, while a field whose key already exists in the
accumulating record is stored under the schema's field name at the
field's positional index; hence the two concrete behaviours from the
specification. -/
theorem c8_kv_duplicate_key (schemaKeys : List String) (sep : List Char)
    (field k v : List Char) (rest : List (List Char)) (idx : Nat) (acc : JObj)
    (hmatch : kvRegexMatch sep field = true)
    (hsplit : splitOnL sep field = [k, v]) :
    (kvLoop schemaKeys sep (field :: rest) idx acc =
      if hasKey acc ⟨k⟩ then
        kvLoop schemaKeys sep rest (idx + 1)
          (dictUpdate acc (schemaKeys.getD idx "") (.str ⟨v⟩))
      else kvLoop schemaKeys sep rest (idx + 1) (dictUpdate acc ⟨k⟩ (.str ⟨v⟩)))
    ∧ KVParser.parse [("a", SchemaType.string), ("b", SchemaType.string)] {} "a=1 b=2" =
        .ok (.records [.obj [("a", .str "1"), ("b", .str "2")]])
    ∧ KVParser.parse [("a", SchemaType.string), ("b", SchemaType.string)] {} "a=1 a=2" =
        .ok (.records [.obj [("a", .str "1"), ("b", .str "2")]]) := by
  refine ⟨?_, rfl, rfl⟩
  simp only [kvLoop, hmatch, hsplit, if_true]

/-- Witness for the general conjunct of C8 at a concrete duplicate-key
step (`a=2` arriving at index 1 when `a` is already bound). -/
theorem c8_witness :
    kvLoop ["a", "b"] ['='] [['a', '=', '2']] 1 [("a", JValue.str "1")] =
      if hasKey [("a", JValue.str "1")] ⟨['a']⟩ then
        kvLoop ["a", "b"] ['='] [] 2
          (dictUpdate [("a", JValue.str "1")] (["a", "b"].getD 1 "") (.str ⟨['2']⟩))
      else kvLoop ["a", "b"] ['='] [] 2
        (dictUpdate [("a", JValue.str "1")] ⟨['a']⟩ (.str ⟨['2']⟩)) :=
  (c8_kv_duplicate_key ["a", "b"] ['='] ['a', '=', '2'] ['a'] ['2'] [] 1
    [("a", JValue.str "1")] rfl rfl).1

/-- Projecting each schema key through the named capture groups succeeds
when every key names one of the four groups. -/
theorem syslogProject_all_named (g : String × String × String × String) :
    ∀ (ks : List String), (∀ k ∈ ks, syslogGroup g k ≠ none) →
      syslogProject g ks = some (ks.map (fun k => (k, JValue.str (syslogGroupD g k)))) := by
  intro ks
  induction ks with
  | nil => intro _; rfl
  | cons k rest ih =>
    intro h
    obtain ⟨v, hv⟩ := Option.ne_none_iff_exists'.mp (h k (by simp))
    simp only [syslogProject, hv, ih (fun x hx => h x (by simp [hx])), List.map_cons,
      syslogGroupD]
    simp [hv]

/-- Claim C9: a line that does not match the fixed four-group syslog
pattern parses to the failure value; a matching line yields exactly one
record whose keys are exactly the schema's field names, each bound to the
capture group of the same name — with the specification's concrete
positive and negative examples. -/
theorem c9_syslog (schema : Schema) (data : String) :
    (syslogMatch data = none → SyslogParser.parse schema data = .ok .failure)
    ∧ (∀ g, syslogMatch data = some g →
        (∀ k ∈ keysOf schema, syslogGroup g k ≠ none) →
        SyslogParser.parse schema data =
          .ok (.records [.obj ((keysOf schema).map
            (fun k => (k, JValue.str (syslogGroupD g k))))]))
    ∧ syslogMatch "Jan 10 19:35:33 host sudo: session opened" =
        some ("Jan 10 19:35:33", "host", "sudo", "session opened")
    ∧ syslogMatch "Jan 10 19:35:33 host sudo session opened" = none := by
  refine ⟨fun h => ?_, fun g hg hks => ?_, by decide, by decide⟩
  · unfold SyslogParser.parse
    rw [h]
  · unfold SyslogParser.parse
    rw [hg]
    dsimp only
    rw [syslogProject_all_named g (keysOf schema) hks]

/-- Witness for C9: the specification's example line with the full
four-field schema, and a non-matching line. -/
theorem c9_witness :
    SyslogParser.parse
        [("timestamp", SchemaType.string), ("host", SchemaType.string),
         ("application", SchemaType.string), ("message", SchemaType.string)]
        "Jan 10 19:35:33 host sudo: session opened" =
      .ok (.records [.obj [("timestamp", JValue.str "Jan 10 19:35:33"),
        ("host", JValue.str "host"), ("application", JValue.str "sudo"),
        ("message", JValue.str "session opened")]])
    ∧ SyslogParser.parse [("timestamp", SchemaType.string)] "nope" = .ok .failure := by
  constructor
  · have h := (c9_syslog
        [("timestamp", SchemaType.string), ("host", SchemaType.string),
         ("application", SchemaType.string), ("message", SchemaType.string)]
        "Jan 10 19:35:33 host sudo: session opened").2.1
      ("Jan 10 19:35:33", "host", "sudo", "session opened") (by decide) (by decide)
    rw [h]
    rfl
  · exact (c9_syslog [("timestamp", SchemaType.string)] "nope").1 rfl

end StreamAlert
